import Mathlib

/-!
Shallow embedding of `src/cli.rs` from maidsafe/safe-authenticator-cli.

The embedding covers the three components the specification describes:
 - `get_login_details` (credential resolution from environment, config file
   or interactive terminal),
 - `prompt_to_allow` (the consent engine for decoded IPC authorisation
   requests),
 - `parsable_list_authed_apps` (the machine-parsable authorised-app list
   formatter).

Rust side effects are made explicit: the filesystem is a function from
paths to read outcomes, terminal reads are explicit inputs, printed output
is collected as a trace, and a Rust `panic!`/`unwrap`/`expect` abort is the
`RunResult.panicked` outcome (distinct from a returned `Err`, which is
`RunResult.err`).
-/

/-- Outcome of running a Rust function that can return `Ok`, return `Err`
(the error path of the function) or abort the whole process with a panic
(`unwrap`/`expect` on an `Err`). -/
inductive RunResult (α : Type) where
  | ok (a : α) : RunResult α
  | err (msg : String) : RunResult α
  | panicked (msg : String) : RunResult α
deriving DecidableEq

/-- True exactly on `RunResult.err`. -/
def RunResult.isErr {α : Type} : RunResult α → Bool
  | .err _ => true
  | _ => false

/-- Rust `String::is_empty` (length zero, i.e. equality with the empty
string). -/
def strIsEmpty (s : String) : Bool :=
  s == ""

/-- Rust `bool` shown with `Display` (`format!("{}", b)`). -/
def boolString (b : Bool) : String :=
  if b then "true" else "false"

/-! ## JSON values (model of the `serde_json::Value` interface used by the
source: `from_reader` produces a value, `get` looks a key up in an object,
and `to_string`/`Display` serialises the value back to compact JSON).
The mutual shape (`Json`/`JsonList`/`JsonObj`) keeps every function on it
structurally recursive. Numbers are modelled as integers. -/

mutual

inductive Json where
  | null : Json
  | bool (b : Bool) : Json
  | num (n : Int) : Json
  | str (s : String) : Json
  | arr (elems : JsonList) : Json
  | obj (fields : JsonObj) : Json

inductive JsonList where
  | nil : JsonList
  | cons (head : Json) (tail : JsonList) : JsonList

inductive JsonObj where
  | nil : JsonObj
  | cons (key : String) (value : Json) (tail : JsonObj) : JsonObj

end

/-- Lookup of the first field with the given key in the field list
of a JSON object (the map behind `serde_json::Value::get`). -/
def JsonObj.find : JsonObj → String → Option Json
  | .nil, _ => none
  | .cons k v rest, key => if k == key then some v else rest.find key

/-- The `serde_json::Value::get(key)` accessor: a field of an object,
`none` on any non-object value or missing key. -/
def Json.get : Json → String → Option Json
  | .obj fields, key => fields.find key
  | _, _ => none

/-- Escape applied to the characters of a string placed between quotes by a
serialiser. Quote, backslash and the common control characters are escaped
as in both `serde_json` and the Rust `Debug` format for strings (the two agree on
every character this development uses). -/
def escChar : Char → List Char
  | '\"' => ['\\', '\"']
  | '\\' => ['\\', '\\']
  | '\n' => ['\\', 'n']
  | '\t' => ['\\', 't']
  | '\r' => ['\\', 'r']
  | c => [c]

/-- Escape every character of a string (helper for quoted serialisation). -/
def escapeString (s : String) : String :=
  ⟨s.data.foldr (fun c acc => escChar c ++ acc) []⟩

/-- Decimal digits of `n` accumulated most-significant first; `fuel` bounds
the recursion and any `fuel ≥ n` is enough. Models the decimal integer
rendering used by `serde_json` and by the Rust `Display` format for unsigned
integers. -/
def renderNatCore : Nat → Nat → List Char → List Char
  | 0, _, acc => acc
  | fuel + 1, n, acc =>
    if n = 0 then acc
    else renderNatCore fuel (n / 10) (Char.ofNat (48 + n % 10) :: acc)

/-- Decimal rendering of a natural number (Rust `Display` of `u64`). -/
def renderNat (n : Nat) : String :=
  if n = 0 then "0" else ⟨renderNatCore n n []⟩

/-- Decimal rendering of an integer (serde_json number serialisation). -/
def renderInt : Int → String
  | .ofNat m => renderNat m
  | .negSucc m => "-" ++ renderNat (m + 1)

mutual

/-- Compact serialisation of a JSON value: the `Display` rendering of
`serde_json::Value`, which is what `Value::to_string()` returns. A string value is surrounded
by quote characters. -/
def Json.render : Json → String
  | .null => "null"
  | .bool true => "true"
  | .bool false => "false"
  | .num n => renderInt n
  | .str s => "\"" ++ escapeString s ++ "\""
  | .arr elems => "[" ++ JsonList.render elems ++ "]"
  | .obj fields => "\x7b" ++ JsonObj.render fields ++ "\x7d"

/-- Comma-separated serialisation of JSON array elements. -/
def JsonList.render : JsonList → String
  | .nil => ""
  | .cons j .nil => Json.render j
  | .cons j rest => Json.render j ++ "," ++ JsonList.render rest

/-- Comma-separated serialisation of JSON object fields. -/
def JsonObj.render : JsonObj → String
  | .nil => ""
  | .cons k v .nil => "\"" ++ escapeString k ++ "\":" ++ Json.render v
  | .cons k v rest =>
      "\"" ++ escapeString k ++ "\":" ++ Json.render v ++ "," ++ JsonObj.render rest

end

/-! ## Credential resolution (`get_login_details`) -/

/-- The environment after `envy::from_env::<Environment>()`: each variable
is `some value` when set (possibly to the empty string) and `none` when
unset. Field names follow the source struct. -/
structure Environment where
  safe_auth_secret : Option String
  safe_auth_password : Option String
deriving DecidableEq

/-- The resolved credential pair (source struct `LoginDetails`). -/
structure LoginDetails where
  secret : String
  password : String
deriving DecidableEq

/-- Outcome of `fs::File::open` followed by `serde_json::from_reader` on a
config path: the open can fail with an error message, and the contents of
an opened file either parse to a JSON value or fail to parse (`parsed = none`). -/
inductive FileRead where
  | openError (e : String) : FileRead
  | opened (parsed : Option Json) : FileRead

/-- Result of credential resolution together with its observable effects:
whether the config file was opened (i.e. `fs::File::open` was reached) and
whether the interactive terminal prompt was invoked. -/
structure ResolveOutcome where
  result : RunResult LoginDetails
  configOpened : Bool
  prompted : Bool
deriving DecidableEq

/-- Error message of source line 154 (`InconsistentEnv` in the spec). -/
def inconsistentEnvMsg : String :=
  "Both the secret and password environment variables must be set to be used for SAFE login."

/-- Error message of source lines 189-191 (`EmptyCredential` in the spec). -/
def emptyCredentialMsg : String :=
  "Neither the secret nor password can be empty."

/-- Panic message of `Result::unwrap` on the `Err` of `serde_json::from_reader`
(source line 166); the dynamic payload of the panic is not modelled. -/
def jsonUnwrapPanicMsg : String :=
  "called Result::unwrap on an Err value"

/-- Final validation of source lines 188-199: reject an empty secret or
password, otherwise build the `LoginDetails`. -/
def finalCheck (the_secret the_password : String) : RunResult LoginDetails :=
  if strIsEmpty the_secret || strIsEmpty the_password then
    .err emptyCredentialMsg
  else
    .ok ⟨the_secret, the_password⟩

/-- Embedding of `get_login_details` (source lines 137-200). The config
path option stands for `args.config_file_str`, `fs` for the filesystem,
and `tty_secret`/`tty_password` for the two `rpassword` reads (whose
`unwrap` panics on a read error). The source runs its final emptiness
check once after the big conditional; here `finalCheck` is applied on each
path that reaches it, which is the same control flow. -/
def get_login_details (env : Environment) (config_file_str : Option String)
    (fs : String → FileRead) (tty_secret tty_password : Except String String) :
    ResolveOutcome :=
  let the_secret := env.safe_auth_secret.getD ""
  let the_password := env.safe_auth_password.getD ""
  if Bool.xor (strIsEmpty the_secret) (strIsEmpty the_password) then
    ⟨.err inconsistentEnvMsg, false, false⟩
  else if strIsEmpty the_secret || strIsEmpty the_password then
    match config_file_str with
    | some path =>
      match fs path with
      | .openError e =>
          ⟨.err ("Error reading config file. " ++ e), true, false⟩
      | .opened none =>
          ⟨.panicked jsonUnwrapPanicMsg, true, false⟩
      | .opened (some json) =>
        match json.get "secret" with
        | none =>
            ⟨.err "The config files\u0027s secret field cannot be empty", true, false⟩
        | some secret =>
          match json.get "password" with
          | none =>
              ⟨.err "The config files\u0027s password field cannot be empty", true, false⟩
          | some password =>
              ⟨finalCheck secret.render password.render, true, false⟩
    | none =>
      match tty_secret with
      | .error e => ⟨.panicked e, false, true⟩
      | .ok s =>
        match tty_password with
        | .error e => ⟨.panicked e, false, true⟩
        | .ok p => ⟨finalCheck s p, false, true⟩
  else
    ⟨finalCheck the_secret the_password, false, false⟩

/-- The claim condition "set and non-empty" on one environment variable. -/
def envProvided (v : Option String) : Prop :=
  v.getD "" ≠ ""

/-! ## Consent engine (`prompt_to_allow`) -/

/-- App identity carried by every registered request and by the
authorised-app records (safe-core `AppExchangeInfo`, the three fields the
source reads). -/
structure AppExchangeInfo where
  id : String
  name : String
  vendor : String
deriving DecidableEq

/-- Container permission (safe-core `Permission`, rendered by its `Debug`
name in the listing output). -/
inductive ContPerm where
  | read : ContPerm
  | insert : ContPerm
  | update : ContPerm
  | delete : ContPerm
  | managePermissions : ContPerm
deriving DecidableEq

/-- Rust `Debug` name of a container permission. -/
def ContPerm.debugName : ContPerm → String
  | .read => "Read"
  | .insert => "Insert"
  | .update => "Update"
  | .delete => "Delete"
  | .managePermissions => "ManagePermissions"

/-- Mutation action tested against a `ShareMData` permission set (routing
`Action`, the four variants the source tests; scoped under `Routing` to
keep the name used by the source crate). -/
inductive Routing.Action where
  | insert : Routing.Action
  | update : Routing.Action
  | delete : Routing.Action
  | managePermissions : Routing.Action
deriving DecidableEq

/-- Routing `PermissionSet` restricted to its `is_allowed` interface: for
each action the set either records an explicit allow/deny (`some b`) or
leaves it unset (`none`), in which case the `unwrap_or(false)` in the source
treats the capability as not granted. -/
structure PermissionSet where
  insert : Option Bool
  update : Option Bool
  delete : Option Bool
  managePermissions : Option Bool
deriving DecidableEq

/-- Routing `PermissionSet::is_allowed`. -/
def PermissionSet.is_allowed (ps : PermissionSet) : Routing.Action → Option Bool
  | .insert => ps.insert
  | .update => ps.update
  | .delete => ps.delete
  | .managePermissions => ps.managePermissions

/-- One entry of a share-MutableData request (safe-core `ShareMData`):
type tag, XoR address (32 bytes, modelled as the list of byte values) and
the requested permission set. -/
structure ShareMData where
  type_tag : Nat
  name : List Nat
  perms : PermissionSet
deriving DecidableEq

/-- Application authorisation request (safe-core `AuthReq`; the container
map is carried as a list of name/permission-set pairs in iteration
order). -/
structure AuthReq where
  app : AppExchangeInfo
  app_container : Bool
  containers : List (String × List ContPerm)
deriving DecidableEq

/-- Container access request (safe-core `ContainersReq`). -/
structure ContainersReq where
  app : AppExchangeInfo
  containers : List (String × List ContPerm)
deriving DecidableEq

/-- Share-MutableData request (safe-core `ShareMDataReq`). -/
structure ShareMDataReq where
  app : AppExchangeInfo
  mdata : List ShareMData
deriving DecidableEq

/-- Decoded IPC request (safe-core `IpcReq`), the closed four-variant
union matched by `prompt_to_allow`. The payload of the unregistered variant is
the extra data the source ignores. -/
inductive IpcReq where
  | auth (req : AuthReq) : IpcReq
  | containers (req : ContainersReq) : IpcReq
  | shareMData (req : ShareMDataReq) : IpcReq
  | unregistered (extra : List Nat) : IpcReq
deriving DecidableEq

/-- One observable output action of the consent engine: a `println!` line,
a `print!` fragment without newline (the consent prompt), or a
prettytable `printstd` (kept as its rows, each row a list of cells). -/
inductive OutEvent where
  | line (s : String) : OutEvent
  | text (s : String) : OutEvent
  | table (rows : List (List String)) : OutEvent
deriving DecidableEq

/-- True exactly on the `print!` prompt fragment event. -/
def OutEvent.isPrompt : OutEvent → Bool
  | .text _ => true
  | _ => false

/-- Everything observable about one `prompt_to_allow` call: the output
trace, how many `read_line` calls happened, and the decision (or panic). -/
structure ConsentRun where
  output : List OutEvent
  reads : Nat
  result : RunResult Bool
deriving DecidableEq

/-- The consent prompt fragment (source line 343). -/
def promptText : String :=
  "Allow authorisation? [y/N]: "

/-- The `expect` message of the `read_line` call (source line 347); on a
read error the process panics with it instead of answering. -/
def readFailMsg : String :=
  "Did not enter a correct string. Authorisation will be denied."

/-- Source lines 348-353: drop one trailing newline, then one trailing
carriage return, each by checking the last character and popping it. -/
def stripResponse (s : String) : String :=
  let s1 := if s.data.getLast? = some '\n' then String.mk s.data.dropLast else s
  if s1.data.getLast? = some '\r' then String.mk s1.data.dropLast else s1

/-- ASCII lowering of one character, the fragment of the Rust function
`str::to_lowercase` that can affect comparison with the ASCII string
`"y"` (no character outside `A..Z` lowercases to a plain `y`). -/
def asciiLower (c : Char) : Char :=
  if 'A' ≤ c ∧ c ≤ 'Z' then Char.ofNat (c.toNat + 32) else c

/-- Rust `str::to_lowercase` (ASCII fragment, see `asciiLower`). -/
def rustToLowercase (s : String) : String :=
  ⟨s.data.map asciiLower⟩

/-- Source line 355: the consent decision for one successfully read
response line. -/
def consentAnswer (line : String) : Bool :=
  rustToLowercase (stripResponse line) == "y"

/-- Debug rendering of one container permission set (`BTreeSet` `Debug`,
brace-wrapped and comma-joined). -/
def debugPermList (perms : List ContPerm) : String :=
  "\x7b" ++ String.intercalate ", " (perms.map ContPerm.debugName) ++ "\x7d"

/-- Debug rendering of a container-name to permission-set map (`HashMap`
`Debug`; iteration order is the order of the list, standing for the
unspecified map order). -/
def debugContainersMap (containers : List (String × List ContPerm)) : String :=
  "\x7b" ++
    String.intercalate ", "
      (containers.map fun kv => "\"" ++ escapeString kv.1 ++ "\": " ++ debugPermList kv.2) ++
    "\x7d"

/-- Debug rendering of a whole `ContainersReq` (source line 270 prints the
request with `{:?}`). -/
def debugContainersReq (req : ContainersReq) : String :=
  "ContainersReq \x7b app: AppExchangeInfo \x7b id: \"" ++ escapeString req.app.id ++
    "\", name: \"" ++ escapeString req.app.name ++
    "\", vendor: \"" ++ escapeString req.app.vendor ++
    "\" \x7d, containers: " ++ debugContainersMap req.containers ++ " \x7d"

/-- Lowercase hex digit. -/
def hexChar (n : Nat) : Char :=
  if n < 10 then Char.ofNat (48 + n) else Char.ofNat (87 + n)

/-- Lowercase hex of one byte. -/
def byteHex (b : Nat) : String :=
  ⟨[hexChar (b / 16 % 16), hexChar (b % 16)]⟩

/-- `XorName::to_hex` over the address bytes (lowercase hex, in order). -/
def toHex (bytes : List Nat) : String :=
  String.join (bytes.map byteHex)

/-- Contribution of one `ShareMData` entry to the rendered row (source
lines 285-319): type tag, hex address, then the permission phrase built
from the four `is_allowed(..).unwrap_or(false)` tests in the fixed order
Insert, Update, Delete, ManagePermissions. -/
def shareEntryString (m : ShareMData) : String :=
  let insert_perm := if (m.perms.is_allowed .insert).getD false then " Insert" else ""
  let update_perm := if (m.perms.is_allowed .update).getD false then " Update" else ""
  let delete_perm := if (m.perms.is_allowed .delete).getD false then " Delete" else ""
  let manage_perm :=
    if (m.perms.is_allowed .managePermissions).getD false then " ManagePermissions" else ""
  "Type tag: " ++ renderNat m.type_tag ++ "\nXoR name: " ++ toHex m.name ++
    "\nPermissions:" ++ insert_perm ++ update_perm ++ delete_perm ++ manage_perm ++ "\n\n"

/-- The `row` string accumulated over all entries of a share request
(source loop at lines 285-319). -/
def shareRowString (mdata : List ShareMData) : String :=
  mdata.foldl (fun row m => row ++ shareEntryString m) ""

/-- Rendering of an application authorisation request (source lines
252-267). -/
def renderAuth (req : AuthReq) : List OutEvent :=
  [ .line "The following application authorisation request was received:",
    .table
      [ ["Id", "Name", "Vendor", "Permissions requested"],
        [ req.app.id, req.app.name, req.app.vendor,
          "Own container: " ++ boolString req.app_container ++
            "\nDefault containers: " ++ debugContainersMap req.containers ] ] ]

/-- Rendering of a containers request (source lines 268-281). -/
def renderContainers (req : ContainersReq) : List OutEvent :=
  [ .line "The following authorisation request for containers was received:",
    .line (debugContainersReq req),
    .table
      [ ["Id", "Name", "Vendor", "Permissions requested"],
        [req.app.id, req.app.name, req.app.vendor, debugContainersMap req.containers] ] ]

/-- Rendering of a share-MutableData request (source lines 282-334). -/
def renderShareMData (req : ShareMDataReq) : List OutEvent :=
  [ .line "The following authorisation request to share a MutableData was received:",
    .table
      [ ["Id", "Name", "Vendor", "MutableData\u0027s requested to share"],
        [req.app.id, req.app.name, req.app.vendor, shareRowString req.mdata] ] ]

/-- Shared prompt tail of `prompt_to_allow` (source lines 342-361): print
the prompt fragment, read one line (`input = none` is a failed read, on
which the `expect` panics), normalise, compare with `"y"`, and print the
decision line. -/
def runPrompt (rendered : List OutEvent) (input : Option String) : ConsentRun :=
  match input with
  | none =>
      ⟨rendered ++ [.text promptText], 1, .panicked readFailMsg⟩
  | some line =>
    if consentAnswer line then
      ⟨rendered ++ [.text promptText, .line "Authorisation will be allowed"], 1, .ok true⟩
    else
      ⟨rendered ++ [.text promptText, .line "Authorisation will be denied"], 1, .ok false⟩

/-- Embedding of `prompt_to_allow` (source lines 250-362): render the
request per variant and run the shared prompt; an unregistered request
returns `true` before any output or read. -/
def prompt_to_allow (req : IpcReq) (input : Option String) : ConsentRun :=
  match req with
  | .auth r => runPrompt (renderAuth r) input
  | .containers r => runPrompt (renderContainers r) input
  | .shareMData r => runPrompt (renderShareMData r) input
  | .unregistered _ => ⟨[], 0, .ok true⟩

/-! ## Parsable app listing (`parsable_list_authed_apps`) -/

/-- One authorised-app record (safe_auth `AuthedAppsList`): identity plus
the container-name to granted-permission-set pairs, in iteration order. -/
structure AuthedAppsList where
  app : AppExchangeInfo
  perms : List (String × List ContPerm)
deriving DecidableEq

/-- Rust `Debug` of a string: quoted and escaped (`format!("{:?}", s)`). -/
def debugString (s : String) : String :=
  "\"" ++ escapeString s ++ "\""

/-- Pipe-joined permission names of one container (source inner loop at
lines 235-241: append each name, then `"|"` while elements remain). -/
def permsJoined : List ContPerm → String
  | [] => ""
  | [p] => p.debugName
  | p :: rest => p.debugName ++ "|" ++ permsJoined rest

/-- Comma-joined container fragments (source outer loop at lines 232-245:
append `name:perms`, then `","` while containers remain). -/
def containersJoined : List (String × List ContPerm) → String
  | [] => ""
  | [kv] => debugString kv.1 ++ ":" ++ permsJoined kv.2
  | kv :: rest =>
      debugString kv.1 ++ ":" ++ permsJoined kv.2 ++ "," ++ containersJoined rest

/-- The line printed for one app (source lines 228-246): plain id, Debug
name and vendor, then the bracketed container list. -/
def appLine (info : AuthedAppsList) : String :=
  info.app.id ++ "\t" ++ debugString info.app.name ++ "\t" ++ debugString info.app.vendor ++
    "\t[" ++ containersJoined info.perms ++ "]"

/-- Embedding of `parsable_list_authed_apps` (source lines 224-248): the
header line followed by one line per app, as the list of printed lines. -/
def parsable_list_authed_apps (authed_apps : List AuthedAppsList) : List String :=
  "APP ID\tNAME\tVENDOR\tPERMISSIONS" :: authed_apps.map appLine

/-! ## Helper lemmas -/

theorem strIsEmpty_eq_false {s : String} (h : s ≠ "") : strIsEmpty s = false := by
  simp [strIsEmpty, beq_eq_false_iff_ne, h]

theorem data_ne_nil_of_ne_empty (x : String) (hx : x ≠ "") : x.data ≠ [] :=
  fun h => hx (String.ext (h.trans rfl))

theorem append_ne_empty (x y : String) (hx : x ≠ "") : x ++ y ≠ "" := by
  intro he
  have hd := congrArg String.data he
  rw [String.data_append] at hd
  exact data_ne_nil_of_ne_empty x hx (List.append_eq_nil.mp hd).1

theorem renderNatCore_length (fuel : Nat) : ∀ (n : Nat) (acc : List Char),
    acc.length ≤ (renderNatCore fuel n acc).length := by
  induction fuel with
  | zero => intro n acc; simp [renderNatCore]
  | succ f ih =>
    intro n acc
    rw [renderNatCore]
    split
    · exact Nat.le_refl _
    · have hc := ih (n / 10) (Char.ofNat (48 + n % 10) :: acc)
      simp only [List.length_cons] at hc
      exact Nat.le_trans (Nat.le_succ _) hc

theorem renderNat_ne_empty (n : Nat) : renderNat n ≠ "" := by
  rw [renderNat]
  split
  · decide
  · rename_i h
    intro he
    have hd : renderNatCore n n [] = [] := congrArg String.data he
    cases n with
    | zero => exact h rfl
    | succ k =>
      rw [renderNatCore, if_neg (Nat.succ_ne_zero k)] at hd
      have hlen := renderNatCore_length k ((k + 1) / 10)
        [Char.ofNat (48 + (k + 1) % 10)]
      rw [hd] at hlen
      simp at hlen

theorem Json.render_ne_empty (j : Json) : j.render ≠ "" := by
  cases j with
  | null => decide
  | bool b => cases b <;> decide
  | num n =>
    show renderInt n ≠ ""
    cases n with
    | ofNat m => exact renderNat_ne_empty m
    | negSucc m => exact append_ne_empty _ _ (by decide)
  | str s => exact append_ne_empty _ _ (append_ne_empty _ _ (by decide))
  | arr elems => exact append_ne_empty _ _ (append_ne_empty _ _ (by decide))
  | obj fields => exact append_ne_empty _ _ (append_ne_empty _ _ (by decide))

theorem strIsEmpty_render_false (j : Json) : strIsEmpty j.render = false :=
  strIsEmpty_eq_false (Json.render_ne_empty j)

/-! ## Claims about credential resolution -/

/-- Claim C3: when both environment variables are set and non-empty,
resolution returns exactly that pair unchanged, for every config path,
filesystem and terminal: the config file is never opened and no
interactive prompt occurs. -/
theorem env_pair_wins (s p : String) (config : Option String)
    (fs : String → FileRead) (ts tp : Except String String)
    (hs : s ≠ "") (hp : p ≠ "") :
    get_login_details ⟨some s, some p⟩ config fs ts tp =
      ⟨.ok ⟨s, p⟩, false, false⟩ := by
  simp [get_login_details, finalCheck, strIsEmpty_eq_false hs, strIsEmpty_eq_false hp]

/-- Witness for C3 at a concrete environment. -/
theorem env_pair_wins_witness :
    get_login_details ⟨some "sec", some "pwd"⟩ (some "cfg.json")
        (fun _ => .openError "io") (.ok "a") (.ok "b") =
      ⟨.ok ⟨"sec", "pwd"⟩, false, false⟩ :=
  env_pair_wins "sec" "pwd" (some "cfg.json") (fun _ => .openError "io")
    (.ok "a") (.ok "b") (by decide) (by decide)

/-- Claim C5: when exactly one of the two environment variables is set
and non-empty, resolution fails with the inconsistent-environment error
without opening the config file or prompting. -/
theorem inconsistent_env_fails (env : Environment) (config : Option String)
    (fs : String → FileRead) (ts tp : Except String String)
    (h : (envProvided env.safe_auth_secret ∧ ¬envProvided env.safe_auth_password) ∨
         (¬envProvided env.safe_auth_secret ∧ envProvided env.safe_auth_password)) :
    get_login_details env config fs ts tp = ⟨.err inconsistentEnvMsg, false, false⟩ := by
  rcases h with ⟨h1, h2⟩ | ⟨h1, h2⟩
  · have e1 : strIsEmpty (env.safe_auth_secret.getD "") = false := strIsEmpty_eq_false h1
    have e2 : strIsEmpty (env.safe_auth_password.getD "") = true := by
      simp only [envProvided, not_not, ne_eq] at h2
      simp [strIsEmpty, h2]
    simp [get_login_details, e1, e2]
  · have e1 : strIsEmpty (env.safe_auth_secret.getD "") = true := by
      simp only [envProvided, not_not, ne_eq] at h1
      simp [strIsEmpty, h1]
    have e2 : strIsEmpty (env.safe_auth_password.getD "") = false := strIsEmpty_eq_false h2
    simp [get_login_details, e1, e2]

/-- Witness for C5: secret set and non-empty, password unset. -/
theorem inconsistent_env_fails_witness :
    get_login_details ⟨some "sec", none⟩ none (fun _ => .openError "io")
        (.ok "a") (.ok "b") =
      ⟨.err inconsistentEnvMsg, false, false⟩ :=
  inconsistent_env_fails ⟨some "sec", none⟩ none (fun _ => .openError "io")
    (.ok "a") (.ok "b") (.inl ⟨by simp [envProvided], by simp [envProvided]⟩)

/-- Claim C4 (evaluation at the failing input): with no environment values
and a config file parsing to the object with string fields secret "s" and
password "p", resolution succeeds without prompting, but the returned pair
is the JSON-serialised values, i.e. the strings still carrying their quote
characters, not the pair ("s", "p") the claim states. -/
theorem config_values_serialised_with_quotes :
    (get_login_details ⟨none, none⟩ (some "config.json")
        (fun _ => .opened (some (.obj (.cons "secret" (.str "s")
          (.cons "password" (.str "p") .nil)))))
        (.error "no tty") (.error "no tty") =
      ⟨.ok ⟨"\"s\"", "\"p\""⟩, true, false⟩) ∧
    ("\"s\"" : String) ≠ "s" ∧ ("\"p\"" : String) ≠ "p" :=
  ⟨by decide, by decide, by decide⟩

/-- Counterexample to claim C8 as stated: at a concrete input whose config
file opens but does not parse as JSON, resolution does not return any
error value at all — the unwrap panics (process abort), so the claimed
ConfigMalformed error return is refuted. -/
theorem config_parse_failure_is_panic :
    ((get_login_details ⟨none, none⟩ (some "config.json") (fun _ => .opened none)
        (.error "t") (.error "t")).result = .panicked jsonUnwrapPanicMsg) ∧
    ((get_login_details ⟨none, none⟩ (some "config.json") (fun _ => .opened none)
        (.error "t") (.error "t")).result.isErr = false) :=
  ⟨by decide, by decide⟩

/-- Claim C8 as amended: with no usable environment pair and a supplied
config path, an open failure returns the config-unreadable error, a parse
failure aborts with a panic (it is not returned as an error), and neither
case reaches interactive prompting. -/
theorem config_failure_behaviour (env : Environment) (path : String)
    (fs : String → FileRead) (ts tp : Except String String)
    (hs : ¬envProvided env.safe_auth_secret)
    (hp : ¬envProvided env.safe_auth_password) :
    (∀ e, fs path = .openError e →
      get_login_details env (some path) fs ts tp =
        ⟨.err ("Error reading config file. " ++ e), true, false⟩) ∧
    (fs path = .opened none →
      get_login_details env (some path) fs ts tp =
        ⟨.panicked jsonUnwrapPanicMsg, true, false⟩) := by
  have e1 : strIsEmpty (env.safe_auth_secret.getD "") = true := by
    simp only [envProvided, not_not, ne_eq] at hs
    simp [strIsEmpty, hs]
  have e2 : strIsEmpty (env.safe_auth_password.getD "") = true := by
    simp only [envProvided, not_not, ne_eq] at hp
    simp [strIsEmpty, hp]
  constructor
  · intro e he
    simp [get_login_details, e1, e2, he]
  · intro he
    simp [get_login_details, e1, e2, he]

/-- Witness for C8 (amended), covering both failure modes concretely. -/
theorem config_failure_behaviour_witness :
    (get_login_details ⟨none, none⟩ (some "cfg") (fun _ => .openError "denied")
        (.ok "a") (.ok "b") =
      ⟨.err ("Error reading config file. " ++ "denied"), true, false⟩) ∧
    (get_login_details ⟨none, none⟩ (some "cfg") (fun _ => .opened none)
        (.ok "a") (.ok "b") =
      ⟨.panicked jsonUnwrapPanicMsg, true, false⟩) :=
  ⟨(config_failure_behaviour ⟨none, none⟩ "cfg" (fun _ => .openError "denied")
      (.ok "a") (.ok "b") (by simp [envProvided]) (by simp [envProvided])).1 "denied" rfl,
   (config_failure_behaviour ⟨none, none⟩ "cfg" (fun _ => .opened none)
      (.ok "a") (.ok "b") (by simp [envProvided]) (by simp [envProvided])).2 rfl⟩

/-- Claim C10: whenever the supplied config file parses to JSON containing
both a secret and a password key, resolution never fails with the
empty-credential error, because the extracted values are the JSON
serialisations of the two field values, which are never empty strings
(a string value keeps its surrounding quotes). -/
theorem config_pair_never_empty_credential (env : Environment) (path : String)
    (fs : String → FileRead) (ts tp : Except String String) (j sv pv : Json)
    (hfile : fs path = .opened (some j))
    (hsec : j.get "secret" = some sv)
    (hpw : j.get "password" = some pv) :
    (get_login_details env (some path) fs ts tp).result ≠ .err emptyCredentialMsg := by
  rcases e1 : strIsEmpty (env.safe_auth_secret.getD "") with _ | _ <;>
    rcases e2 : strIsEmpty (env.safe_auth_password.getD "") with _ | _
  · simp [get_login_details, e1, e2, finalCheck]
  · simp [get_login_details, e1, e2]
    decide
  · simp [get_login_details, e1, e2]
    decide
  · simp [get_login_details, e1, e2, hfile, hsec, hpw, finalCheck,
      strIsEmpty_render_false]

/-- Witness for C10 at the boundary case the claim highlights: both JSON
values are empty strings. -/
theorem config_pair_never_empty_credential_witness :
    (get_login_details ⟨none, none⟩ (some "cfg")
        (fun _ => .opened (some (.obj (.cons "secret" (.str "")
          (.cons "password" (.str "") .nil)))))
        (.ok "a") (.ok "b")).result ≠ .err emptyCredentialMsg :=
  config_pair_never_empty_credential ⟨none, none⟩ "cfg"
    (fun _ => .opened (some (.obj (.cons "secret" (.str "")
      (.cons "password" (.str "") .nil)))))
    (.ok "a") (.ok "b") (.obj (.cons "secret" (.str "")
      (.cons "password" (.str "") .nil))) (.str "") (.str "") rfl rfl rfl

/-! ## Claims about the consent engine -/

/-- Claim C1: for each rendered request variant and every successfully
read input line, the decision is true exactly when the line, after
stripping one trailing newline then one trailing carriage return and
case-folding, equals "y"; in particular "Y\n" is allowed while "yes\n",
"\n" and "N\n" are denied. -/
theorem consent_decision_iff_y :
    (∀ (r : AuthReq) (line : String),
        (prompt_to_allow (.auth r) (some line)).result =
          .ok (rustToLowercase (stripResponse line) == "y")) ∧
    (∀ (r : ContainersReq) (line : String),
        (prompt_to_allow (.containers r) (some line)).result =
          .ok (rustToLowercase (stripResponse line) == "y")) ∧
    (∀ (r : ShareMDataReq) (line : String),
        (prompt_to_allow (.shareMData r) (some line)).result =
          .ok (rustToLowercase (stripResponse line) == "y")) ∧
    consentAnswer "Y\n" = true ∧
    consentAnswer "yes\n" = false ∧
    consentAnswer "\n" = false ∧
    consentAnswer "N\n" = false := by
  refine ⟨fun r line => ?_, fun r line => ?_, fun r line => ?_,
    by decide, by decide, by decide, by decide⟩ <;>
  · show (runPrompt _ (some line)).result = .ok (consentAnswer line)
    rw [runPrompt]
    rcases hc : consentAnswer line with _ | _ <;> simp [hc]

/-- Claim C2: an unregistered request is auto-granted: the engine returns
true with no output and no read, for every input surface. -/
theorem unregistered_auto_granted (extra : List Nat) (input : Option String) :
    prompt_to_allow (.unregistered extra) input =
      { output := [], reads := 0, result := .ok true } :=
  rfl

/-- Claim C7 (evaluation at the failing input): when the read of the
response line fails after rendering a request, the engine panics with the
expect message (whose own text promises denial) instead of returning the
deny decision. -/
theorem consent_read_failure_panics :
    ((prompt_to_allow (.auth ⟨⟨"net.appid", "AppName", "Vendor"⟩, false, []⟩)
        none).result = .panicked readFailMsg) ∧
    ((prompt_to_allow (.auth ⟨⟨"net.appid", "AppName", "Vendor"⟩, false, []⟩)
        none).result ≠ .ok false) :=
  ⟨by decide, by decide⟩

/-! ## Spec-side reading of the share-MutableData rendering (claim C6).
These definitions follow the wording of the specification; the claim is
settled by proving them equal to what the embedded source code renders. -/

/-- The fixed display order of the permission names in the spec. -/
def fixedActionOrder : List Routing.Action :=
  [.insert, .update, .delete, .managePermissions]

/-- Display name of an action as it appears in the rendered phrase. -/
def Routing.Action.displayName : Routing.Action → String
  | .insert => "Insert"
  | .update => "Update"
  | .delete => "Delete"
  | .managePermissions => "ManagePermissions"

/-- Names of exactly the permissions granted in a set, in the fixed
display order. -/
def grantedNames (ps : PermissionSet) : List String :=
  (fixedActionOrder.filter fun a => (ps.is_allowed a).getD false).map
    Routing.Action.displayName

/-- The permission phrase per the spec: the granted names only, each
preceded by a single leading space, joined in the fixed order. -/
def specPermissionPhrase (ps : PermissionSet) : String :=
  String.join ((grantedNames ps).map fun n => " " ++ n)

/-- One rendered entry per the spec: type tag, address and the phrase. -/
def specShareEntry (m : ShareMData) : String :=
  "Type tag: " ++ renderNat m.type_tag ++ "\nXoR name: " ++ toHex m.name ++
    "\nPermissions:" ++ specPermissionPhrase m.perms ++ "\n\n"

theorem specPermissionPhrase_eq (ps : PermissionSet) :
    specPermissionPhrase ps =
      (if (ps.is_allowed .insert).getD false then " Insert" else "") ++
      (if (ps.is_allowed .update).getD false then " Update" else "") ++
      (if (ps.is_allowed .delete).getD false then " Delete" else "") ++
      (if (ps.is_allowed .managePermissions).getD false then " ManagePermissions"
       else "") := by
  obtain ⟨i, u, d, mg⟩ := ps
  rcases i with _ | (_ | _) <;> rcases u with _ | (_ | _) <;>
    rcases d with _ | (_ | _) <;> rcases mg with _ | (_ | _) <;> decide

theorem shareEntryString_eq (m : ShareMData) :
    shareEntryString m = specShareEntry m := by
  simp only [shareEntryString, specShareEntry, specPermissionPhrase_eq,
    String.append_assoc]

theorem join_cons (x : String) (xs : List String) :
    String.join (x :: xs) = x ++ String.join xs := by
  have hoist : ∀ (l : List String) (a : String),
      l.foldl (· ++ ·) a = a ++ l.foldl (· ++ ·) "" := by
    intro l
    induction l with
    | nil => intro a; simp [String.append_empty]
    | cons y ys ih =>
      intro a
      simp only [List.foldl_cons]
      rw [ih (a ++ y), ih ("" ++ y), String.empty_append, String.append_assoc]
  simp only [String.join, List.foldl_cons]
  rw [hoist xs ("" ++ x), String.empty_append]

theorem shareRowString_eq (mdata : List ShareMData) :
    shareRowString mdata = String.join (mdata.map specShareEntry) := by
  rw [shareRowString]
  have aux : ∀ (l : List ShareMData) (acc : String),
      l.foldl (fun row m => row ++ shareEntryString m) acc =
        acc ++ String.join (l.map specShareEntry) := by
    intro l
    induction l with
    | nil => intro acc; simp [String.join, String.append_empty]
    | cons m rest ih =>
      intro acc
      simp only [List.foldl_cons, List.map_cons, join_cons]
      rw [ih, shareEntryString_eq, String.append_assoc]
  rw [aux, String.empty_append]

/-- Claim C6: for every share-MutableData request and every input, the
output before the prompt is the intro line followed by the table whose
permissions cell concatenates, per entry in order, its type tag, its hex
address and the phrase of exactly the granted permission names in the
fixed order Insert, Update, Delete, ManagePermissions (one leading space
each, absent ones omitted); the prompt fragment is emitted exactly once,
as the third event, after all entries are rendered. -/
theorem sharemdata_rendering (r : ShareMDataReq) (input : Option String) :
    ((prompt_to_allow (.shareMData r) input).output.take 3 =
      [ OutEvent.line
          "The following authorisation request to share a MutableData was received:",
        OutEvent.table
          [ ["Id", "Name", "Vendor", "MutableData\u0027s requested to share"],
            [r.app.id, r.app.name, r.app.vendor,
             String.join (r.mdata.map specShareEntry)] ],
        OutEvent.text promptText ]) ∧
    (prompt_to_allow (.shareMData r) input).output.countP OutEvent.isPrompt = 1 := by
  have hrow := shareRowString_eq r.mdata
  cases input with
  | none =>
    constructor
    · simp [prompt_to_allow, runPrompt, renderShareMData, hrow,
        List.take_succ_cons]
    · simp [prompt_to_allow, runPrompt, renderShareMData, List.countP_cons,
        List.countP_nil, OutEvent.isPrompt]
  | some line =>
    rcases hc : consentAnswer line with _ | _ <;> constructor <;>
      simp [prompt_to_allow, runPrompt, renderShareMData, hrow, hc,
        List.take_succ_cons, List.countP_cons, List.countP_nil,
        OutEvent.isPrompt]

/-! ## Claims about the parsable app listing -/

/-- Counterexample to claim C9 as stated: for the single-app input the
app line produced by the formatter is not the plain tab-separated string the claim
gives, because name, vendor and container names are printed with the
Debug formatter and so carry quote characters. -/
theorem parsable_line_not_plain :
    appLine ⟨⟨"a1", "App", "V"⟩, [("docs", [.insert, .update])]⟩ ≠
      "a1\tApp\tV\t[docs:Insert|Update]" := by
  decide

/-- Claim C9 as amended: the output for the single-app input is the header
line followed by the app line with Debug-quoted name, vendor and container
name, and with no trailing separator after the last permission or the last
container. -/
theorem parsable_line_debug_quoted :
    parsable_list_authed_apps [⟨⟨"a1", "App", "V"⟩, [("docs", [.insert, .update])]⟩] =
      ["APP ID\tNAME\tVENDOR\tPERMISSIONS",
       "a1\t\"App\"\t\"V\"\t[\"docs\":Insert|Update]"] := by
  decide
